import Mathlib

/-!
Verification of the filtered-transform core of `src/libOpenImageIO/imagebufalgo_xform.cpp`
(warp, resize, fit, rotate, resample).  Float arithmetic is modelled exactly over `ℚ`;
machine iteration over half-open pixel rectangles is modelled with explicit integer
range lists.  External collaborators (the Imath matrix type, the image-buffer wrap-mode
reads, the filter registry) are modelled from the specification where noted.
-/

namespace OIIO

/-- Wrap modes of the external image buffer (spec section 3). -/
inductive WrapMode where
  | Black
  | Clamp
  | Periodic
  | Mirror
  | Default
deriving DecidableEq, Repr

/-- Region of interest: half-open integer ranges plus a channel range (spec section 3). -/
structure ROI where
  xbegin : Int
  xend : Int
  ybegin : Int
  yend : Int
  zbegin : Int
  zend : Int
  chbegin : Int
  chend : Int
deriving DecidableEq, Repr

/-- A 3x3 matrix of rationals, row-major `mij` = row i, column j, standing for the
`Imath::M33f` used by the source (row-vector convention: points transform as `v * M`). -/
structure M33 where
  m00 : ℚ
  m01 : ℚ
  m02 : ℚ
  m10 : ℚ
  m11 : ℚ
  m12 : ℚ
  m20 : ℚ
  m21 : ℚ
  m22 : ℚ
deriving DecidableEq, Repr

/-- Matrix product, as Imath `operator*`. -/
def M33.mul (A B : M33) : M33 :=
  ⟨A.m00 * B.m00 + A.m01 * B.m10 + A.m02 * B.m20,
   A.m00 * B.m01 + A.m01 * B.m11 + A.m02 * B.m21,
   A.m00 * B.m02 + A.m01 * B.m12 + A.m02 * B.m22,
   A.m10 * B.m00 + A.m11 * B.m10 + A.m12 * B.m20,
   A.m10 * B.m01 + A.m11 * B.m11 + A.m12 * B.m21,
   A.m10 * B.m02 + A.m11 * B.m12 + A.m12 * B.m22,
   A.m20 * B.m00 + A.m21 * B.m10 + A.m22 * B.m20,
   A.m20 * B.m01 + A.m21 * B.m11 + A.m22 * B.m21,
   A.m20 * B.m02 + A.m21 * B.m12 + A.m22 * B.m22⟩

/-- The translation matrix `T(t)` produced by Imath `Matrix33::translate` applied to the
identity: third row `(tx, ty, 1)` in the row-vector convention. -/
def M33.translateM (tx ty : ℚ) : M33 := ⟨1, 0, 0, 0, 1, 0, tx, ty, 1⟩

/-- The rotation matrix of Imath `Matrix33::setRotation`, with `co = cos r`, `si = sin r`:
rows `(co, si, 0)`, `(-si, co, 0)`, `(0, 0, 1)`. -/
def M33.setRotation (co si : ℚ) : M33 := ⟨co, si, 0, -si, co, 0, 0, 0, 1⟩

/-- Imath `Matrix33::multVecMatrix`: projective transform of a 2D point in the row-vector
convention, `a = x*m00 + y*m10 + m20`, `w = x*m02 + y*m12 + m22`, result `(a/w, b/w)`. -/
def M33.multVec (M : M33) (px py : ℚ) : ℚ × ℚ :=
  let a := px * M.m00 + py * M.m10 + M.m20
  let b := px * M.m01 + py * M.m11 + M.m21
  let w := px * M.m02 + py * M.m12 + M.m22
  (a / w, b / w)

/-- Modelled from the spec: the external Imath `M33f::inverse()` called by the warp kernel
(Imath is an out-of-scope collaborator, not part of this repository).  Idealized over exact
rationals: the adjugate matrix of Imath's general branch divided by the determinant `r`,
returning the identity for a singular matrix. -/
def M33.inverse (M : M33) : M33 :=
  let s00 := M.m11 * M.m22 - M.m21 * M.m12
  let s01 := M.m21 * M.m02 - M.m01 * M.m22
  let s02 := M.m01 * M.m12 - M.m11 * M.m02
  let s10 := M.m20 * M.m12 - M.m10 * M.m22
  let s11 := M.m00 * M.m22 - M.m20 * M.m02
  let s12 := M.m10 * M.m02 - M.m00 * M.m12
  let s20 := M.m10 * M.m21 - M.m20 * M.m11
  let s21 := M.m20 * M.m01 - M.m00 * M.m21
  let s22 := M.m00 * M.m11 - M.m10 * M.m01
  let r := M.m00 * s00 + M.m01 * s10 + M.m02 * s20
  if r = 0 then ⟨1, 0, 0, 0, 1, 0, 0, 0, 1⟩
  else ⟨s00 / r, s01 / r, s02 / r, s10 / r, s11 / r, s12 / r, s20 / r, s21 / r, s22 / r⟩

/-- `transform` (imagebufalgo_xform.cpp lines 122-143): transform an ROI by an affine
matrix.  The four pixel-center corners are mapped by `multVecMatrix`; the bounding box is
built by `Box2f box(ul); box.extendBy(ll); box.extendBy(ur); box.extendBy(lr)`; the result
is `ROI(floor(min.x), floor(max.x)+1, floor(min.y), floor(max.y)+1, zbegin, zend,
chbegin, chend)`. -/
def transform (M : M33) (roi : ROI) : ROI :=
  let ul := M.multVec ((roi.xbegin : ℚ) + 1/2) ((roi.ybegin : ℚ) + 1/2)
  let ur := M.multVec ((roi.xend : ℚ) - 1/2) ((roi.ybegin : ℚ) + 1/2)
  let ll := M.multVec ((roi.xbegin : ℚ) + 1/2) ((roi.yend : ℚ) - 1/2)
  let lr := M.multVec ((roi.xend : ℚ) - 1/2) ((roi.yend : ℚ) - 1/2)
  let minx := min (min (min ul.1 ll.1) ur.1) lr.1
  let miny := min (min (min ul.2 ll.2) ur.2) lr.2
  let maxx := max (max (max ul.1 ll.1) ur.1) lr.1
  let maxy := max (max (max ul.2 ll.2) ur.2) lr.2
  ⟨⌊minx⌋, ⌊maxx⌋ + 1, ⌊miny⌋, ⌊maxy⌋ + 1, roi.zbegin, roi.zend, roi.chbegin, roi.chend⟩

/-- `transform_roi` as claim C5 words it: map the four corner points of `roi` taken at
pixel-center offsets `+0.5` through `M`, take the axis-aligned bounding box of the four
images, and return the integer ROI `[floor(min), floor(max)+1)` on each axis with the z
range and channel range of `roi` unchanged. -/
def claimTransformRoi (M : M33) (roi : ROI) : ROI :=
  let c1 := M.multVec ((roi.xbegin : ℚ) + 1/2) ((roi.ybegin : ℚ) + 1/2)
  let c2 := M.multVec ((roi.xend : ℚ) - 1/2) ((roi.ybegin : ℚ) + 1/2)
  let c3 := M.multVec ((roi.xbegin : ℚ) + 1/2) ((roi.yend : ℚ) - 1/2)
  let c4 := M.multVec ((roi.xend : ℚ) - 1/2) ((roi.yend : ℚ) - 1/2)
  let minx := min (min (min c1.1 c2.1) c3.1) c4.1
  let miny := min (min (min c1.2 c2.2) c3.2) c4.2
  let maxx := max (max (max c1.1 c2.1) c3.1) c4.1
  let maxy := max (max (max c1.2 c2.2) c3.2) c4.2
  ⟨⌊minx⌋, ⌊maxx⌋ + 1, ⌊miny⌋, ⌊maxy⌋ + 1, roi.zbegin, roi.zend, roi.chbegin, roi.chend⟩

/-- `Dual2` (imagebufalgo_xform.cpp lines 46-98): a scalar with two partial derivatives. -/
structure Dual2 where
  val : ℚ
  dx : ℚ
  dy : ℚ
deriving DecidableEq, Repr

/-- `Dual2 operator+(Dual2, Dual2)`. -/
def Dual2.add (a b : Dual2) : Dual2 := ⟨a.val + b.val, a.dx + b.dx, a.dy + b.dy⟩

/-- `Dual2 operator+(Dual2, float)`. -/
def Dual2.addC (a : Dual2) (b : ℚ) : Dual2 := ⟨a.val + b, a.dx, a.dy⟩

/-- `Dual2 operator*(Dual2, float)`. -/
def Dual2.mulC (a : Dual2) (b : ℚ) : Dual2 := ⟨a.val * b, a.dx * b, a.dy * b⟩

/-- `Dual2 operator/(Dual2, Dual2)`: quotient rule through `bvalinv = 1/b.val`. -/
def Dual2.div (a b : Dual2) : Dual2 :=
  let bvalinv := 1 / b.val
  let aval_bval := a.val * bvalinv
  ⟨aval_bval, bvalinv * (a.dx - aval_bval * b.dx), bvalinv * (a.dy - aval_bval * b.dy)⟩

/-- `robust_multVecMatrix` (lines 102-117): transform a 2D point with derivatives by a 3x3
matrix; the projective divide is performed only when the homogeneous `w.val` is nonzero,
otherwise both outputs are set to the constant dual `0`. -/
def robust_multVecMatrix (M : M33) (x y : Dual2) : Dual2 × Dual2 :=
  let a := ((x.mulC M.m00).add (y.mulC M.m10)).addC M.m20
  let b := ((x.mulC M.m01).add (y.mulC M.m11)).addC M.m21
  let w := ((x.mulC M.m02).add (y.mulC M.m12)).addC M.m22
  if w.val ≠ 0 then (a.div w, b.div w) else (⟨0, 0, 0⟩, ⟨0, 0, 0⟩)

/-- The fields of `ImageSpec` that the core reads (spec section 3): the display/full
window and the channel count. -/
structure ImageSpec where
  full_x : Int
  full_y : Int
  full_width : Int
  full_height : Int
  nchannels : Int
deriving DecidableEq, Repr

/-- The external image buffer, reduced to what the core uses: the data window
`[xbegin,xend) x [ybegin,yend)`, its spec, and the stored pixel values (a total function;
only in-window positions are ever read directly). -/
structure ImageBuf where
  xbegin : Int
  xend : Int
  ybegin : Int
  yend : Int
  spec : ImageSpec
  pixel : Int → Int → Int → ℚ

/-- OIIO `clamp(a, lo, hi)`: `a < lo ? lo : (a > hi ? hi : a)`. -/
def clampI (a lo hi : Int) : Int := if a < lo then lo else if a > hi then hi else a

/-- Modelled from the spec: the image-buffer collaborator's wrap-mode read (the buffer is
an out-of-scope external; spec glossary: Black reads zero, Clamp reads the nearest edge
pixel, Periodic tiles, Mirror reflects; Default resolves to Black for these operations).
In-window reads return the stored pixel. -/
def ImageBuf.get (src : ImageBuf) (wrap : WrapMode) (x y c : Int) : ℚ :=
  if src.xbegin ≤ x ∧ x < src.xend ∧ src.ybegin ≤ y ∧ y < src.yend then
    src.pixel x y c
  else
    match wrap with
    | .Black => 0
    | .Default => 0
    | .Clamp =>
        src.pixel (clampI x src.xbegin (src.xend - 1)) (clampI y src.ybegin (src.yend - 1)) c
    | .Periodic =>
        src.pixel (src.xbegin + (x - src.xbegin) % (src.xend - src.xbegin))
          (src.ybegin + (y - src.ybegin) % (src.yend - src.ybegin)) c
    | .Mirror =>
        let w := src.xend - src.xbegin
        let h := src.yend - src.ybegin
        let tx := (x - src.xbegin) % (2 * w)
        let ty := (y - src.ybegin) % (2 * h)
        src.pixel (src.xbegin + if tx < w then tx else 2 * w - 1 - tx)
          (src.ybegin + if ty < h then ty else 2 * h - 1 - ty) c

/-- The external 2D reconstruction filter (spec section 3): nominal width and height, a 2D
evaluator, a separability flag, and 1D separable evaluators. -/
structure Filter2D where
  width : ℚ
  height : ℚ
  separable : Bool
  ev2 : ℚ → ℚ → ℚ
  xfilt : ℚ → ℚ
  yfilt : ℚ → ℚ

/-- `[lo, hi)` as a list of integers in increasing order. -/
def intRange (lo hi : Int) : List Int := (List.range (hi - lo).toNat).map (fun i => lo + (i : Int))

/-- An integer support rectangle `[smin,smax) x [tmin,tmax)` (the iterator bounds;
the constructor stores the bounds as the source computes them). -/
structure Support where
  smin : Int
  smax : Int
  tmin : Int
  tmax : Int
deriving DecidableEq, Repr

/-- Raster-order sum of `f x y` over a support rectangle, as the `ConstIterator` loop
accumulates. -/
def supportSum (sp : Support) (f : Int → Int → ℚ) : ℚ :=
  ((intRange sp.tmin sp.tmax).map (fun y => ((intRange sp.smin sp.smax).map (fun x => f x y)).sum)).sum

/-- The integer support rectangle computed by `filtered_sample` (lines 157-181):
`ds = max(1, |dsdx|, |dsdy|)`, `dt = max(1, |dtdx|, |dtdy|)`;
`filterrad_s = 0.5*ds*filter.width` and `filterrad_t = 0.5*dt*filter.width` (the source
uses the filter width for both axes); `smin = floor(s - filterrad_s)`,
`smax = ceil(s + filterrad_s)`, similarly for t; when `edgeclamp` is set each bound is
clamped to the source data window. -/
def sampleSupport (src : ImageBuf) (s t dsdx dtdx dsdy dtdy : ℚ) (filter : Filter2D)
    (edgeclamp : Bool) : Support :=
  let ds := max 1 (max (abs dsdx) (abs dsdy))
  let dt := max 1 (max (abs dtdx) (abs dtdy))
  let filterrad_s := 1/2 * ds * filter.width
  let filterrad_t := 1/2 * dt * filter.width
  let smin := ⌊s - filterrad_s⌋
  let smax := ⌈s + filterrad_s⌉
  let tmin := ⌊t - filterrad_t⌋
  let tmax := ⌈t + filterrad_t⌉
  if edgeclamp then
    ⟨clampI smin src.xbegin src.xend, clampI smax src.xbegin src.xend,
     clampI tmin src.ybegin src.yend, clampI tmax src.ybegin src.yend⟩
  else ⟨smin, smax, tmin, tmax⟩

/-- The accumulation loop of `filtered_sample` (lines 182-201): per source pixel the
weight is `filter(ds_inv*(x+0.5-s), dt_inv*(y+0.5-t))`; the weighted channel sum is
divided by the total weight when positive, else the output is zero. -/
def sampleResult (src : ImageBuf) (filter : Filter2D) (wrap : WrapMode) (sp : Support)
    (s t ds_inv dt_inv : ℚ) (c : Int) : ℚ :=
  let wt := fun (x y : Int) =>
    filter.ev2 (ds_inv * ((x : ℚ) + 1/2 - s)) (dt_inv * ((y : ℚ) + 1/2 - t))
  let total_w := supportSum sp (fun x y => wt x y)
  let sumc := supportSum sp (fun x y => wt x y * src.get wrap x y c)
  if 0 < total_w then sumc / total_w else 0

/-- `filtered_sample` (lines 150-201): derivative-guided filtered sample of channel `c` at
source-space `(s,t)`. -/
def filtered_sample (src : ImageBuf) (s t dsdx dtdx dsdy dtdy : ℚ) (filter : Filter2D)
    (wrap : WrapMode) (edgeclamp : Bool) (c : Int) : ℚ :=
  let ds := max 1 (max (abs dsdx) (abs dsdy))
  let dt := max 1 (max (abs dtdx) (abs dtdy))
  sampleResult src filter wrap (sampleSupport src s t dsdx dtdx dsdy dtdy filter edgeclamp)
    s t (1 / ds) (1 / dt) c

/-- The support rectangle as claim C1 words it: `rs = 0.5*ds*filter.width` but
`rt = 0.5*dt*filter.height`, support `[floor(s-rs), ceil(s+rs)] x [floor(t-rt), ceil(t+rt)]`. -/
def claimSampleSupport (s t dsdx dtdx dsdy dtdy : ℚ) (filter : Filter2D) : Support :=
  let ds := max 1 (max (abs dsdx) (abs dsdy))
  let dt := max 1 (max (abs dtdx) (abs dtdy))
  let rs := 1/2 * ds * filter.width
  let rt := 1/2 * dt * filter.height
  ⟨⌊s - rs⌋, ⌈s + rs⌉, ⌊t - rt⌋, ⌈t + rt⌉⟩

/-- The support rectangle as the amended claim C1 words it: both radii use the filter
width, `rs = 0.5*ds*filter.width`, `rt = 0.5*dt*filter.width`. -/
def amendedSampleSupport (s t dsdx dtdx dsdy dtdy : ℚ) (filter : Filter2D) : Support :=
  let ds := max 1 (max (abs dsdx) (abs dsdy))
  let dt := max 1 (max (abs dtdx) (abs dtdy))
  let rs := 1/2 * ds * filter.width
  let rt := 1/2 * dt * filter.width
  ⟨⌊s - rs⌋, ⌈s + rs⌉, ⌊t - rt⌋, ⌈t + rt⌉⟩

/-- The per-pixel body of the `warp_` kernel (lines 219-228): duals `(x+0.5, 1, 0)` and
`(y+0.5, 0, 1)` are transformed by the inverse matrix, then `filtered_sample` is invoked
at the resulting point and derivatives. -/
def warpPixel (src : ImageBuf) (Minv : M33) (filter : Filter2D) (wrap : WrapMode)
    (edgeclamp : Bool) (x y c : Int) : ℚ :=
  let xd : Dual2 := ⟨(x : ℚ) + 1/2, 1, 0⟩
  let yd : Dual2 := ⟨(y : ℚ) + 1/2, 0, 1⟩
  let p := robust_multVecMatrix Minv xd yd
  filtered_sample src p.1.val p.2.val p.1.dx p.2.dx p.1.dy p.2.dy filter wrap edgeclamp c

/-- The `warp_` kernel as a destination-image transformer (lines 213-229): every pixel of
`roi` receives `warpPixel` on channels `[chbegin, chend)`; everything else keeps the
previous destination value. -/
def warpKernelFn (dst : Int → Int → Int → ℚ) (src : ImageBuf) (Minv : M33)
    (filter : Filter2D) (wrap : WrapMode) (edgeclamp : Bool) (roi : ROI) :
    Int → Int → Int → ℚ :=
  fun x y c =>
    if roi.xbegin ≤ x ∧ x < roi.xend ∧ roi.ybegin ≤ y ∧ y < roi.yend ∧
        roi.chbegin ≤ c ∧ c < roi.chend then
      warpPixel src Minv filter wrap edgeclamp x y c
    else dst x y c

/-- `warp_` (lines 207-231): inverts `M` with Imath `inverse()`, runs the kernel over the
ROI, and returns `true` unconditionally. -/
def warp_ (dst : Int → Int → Int → ℚ) (src : ImageBuf) (M : M33) (filter : Filter2D)
    (wrap : WrapMode) (edgeclamp : Bool) (roi : ROI) : (Int → Int → Int → ℚ) × Bool :=
  (warpKernelFn dst src (M33.inverse M) filter wrap edgeclamp roi, true)

/-- The homogeneous `w` value that `robust_multVecMatrix` computes inside the warp kernel
for destination pixel `(x, y)` under the matrix `Minv`. -/
def warpW (Minv : M33) (x y : Int) : ℚ :=
  (((x : ℚ) + 1/2) * Minv.m02 + ((y : ℚ) + 1/2) * Minv.m12) + Minv.m22

/-- Destination NDC coordinate `s = (x - full_x + 0.5) * (1/full_width)` (resize_ lines
388-393, 500). -/
def dstNdcS (dstspec : ImageSpec) (x : Int) : ℚ :=
  ((x : ℚ) - (dstspec.full_x : ℚ) + 1/2) * (1 / (dstspec.full_width : ℚ))

/-- Destination NDC coordinate `t` for a row. -/
def dstNdcT (dstspec : ImageSpec) (y : Int) : ℚ :=
  ((y : ℚ) - (dstspec.full_y : ℚ) + 1/2) * (1 / (dstspec.full_height : ℚ))

/-- Source fractional column `src_xf = srcfx + s * srcfw` (resize_ line 501, resample
lines 950-951). -/
def srcXf (srcspec dstspec : ImageSpec) (x : Int) : ℚ :=
  (srcspec.full_x : ℚ) + dstNdcS dstspec x * (srcspec.full_width : ℚ)

/-- Source fractional row `src_yf = srcfy + t * srcfh`. -/
def srcYf (srcspec dstspec : ImageSpec) (y : Int) : ℚ :=
  (srcspec.full_y : ℚ) + dstNdcT dstspec y * (srcspec.full_height : ℚ)

/-- Integer filter radius in source pixels (resize_ lines 394-399):
`ceil((filter.width/2) / ratio)`. -/
def resizeRad (filterwidth ratio : ℚ) : Int := ⌈filterwidth / 2 / ratio⌉

/-- The x ratio `dst_full_width / src_full_width` of resize (lines 384-386). -/
def resizeXratio (srcspec dstspec : ImageSpec) : ℚ :=
  (dstspec.full_width : ℚ) / (srcspec.full_width : ℚ)

/-- The y ratio `dst_full_height / src_full_height`. -/
def resizeYratio (srcspec dstspec : ImageSpec) : ℚ :=
  (dstspec.full_height : ℚ) / (srcspec.full_height : ℚ)

/-- The rerange rectangle of the NON-separable resize path as the source issues it
(lines 560-561): `srcpel.rerange(src_x - radi, src_x + radi + 1, src_y - radi,
src_y + radi + 1, ...)` — note that both axes use `radi`. -/
def nonsepRerange (src_x src_y radi : Int) : Int × Int × Int × Int :=
  (src_x - radi, src_x + radi + 1, src_y - radi, src_y + radi + 1)

/-- The rerange rectangle claim C2 states (the rectangle of the separable path, lines
511-512): y bounds from `radj`. -/
def claimNonsepRerange (src_x src_y radi radj : Int) : Int × Int × Int × Int :=
  (src_x - radi, src_x + radi + 1, src_y - radj, src_y + radj + 1)

/-- Number of pixels inside a rerange rectangle `(xb, xe, yb, ye)`. -/
def rectArea (r : Int × Int × Int × Int) : Int := (r.2.1 - r.1) * (r.2.2.2 - r.2.2.1)

/-- Iterator increments performed by the non-separable accumulation loop (lines 562-575):
`j` runs over `[-radj, radj]` and for each `j`, `i` runs over `[-radi, radi]` with one
`++srcpel` per step. -/
def nonsepIterCount (radi radj : Int) : Int := (2 * radj + 1) * (2 * radi + 1)

/-- The in-loop assertion contract of the non-separable path: `OIIO_DASSERT(!srcpel.done())`
at every step and `OIIO_DASSERT(srcpel.done())` after the loop hold exactly when the loop
consumes the rerange rectangle completely. -/
def nonsepAssertsHold (radi radj : Int) : Prop :=
  nonsepIterCount radi radj = rectArea (nonsepRerange 0 0 radi)

/-- Raw horizontal tap weight `i` of the separable path (lines 419-424):
`filter.xfilt(xratio * (i - radi - (frac - 0.5)))`. -/
def sepXRaw (filter : Filter2D) (xratio frac : ℚ) (radi : Int) (i : ℕ) : ℚ :=
  filter.xfilt (xratio * ((i : ℚ) - (radi : ℚ) - (frac - 1/2)))

/-- Raw vertical tap weight `j` of the separable path (lines 488-494):
`filter.yfilt(yratio * (j - radj - (frac - 0.5)))`. -/
def sepYRaw (filter : Filter2D) (yratio frac : ℚ) (radj : Int) (j : ℕ) : ℚ :=
  filter.yfilt (yratio * ((j : ℚ) - (radj : ℚ) - (frac - 1/2)))

/-- Tap count `2*rad + 1` as a natural number. -/
def tapsOf (rad : Int) : ℕ := (2 * rad + 1).toNat

/-- Sum of the raw horizontal tap weights (`totalweight_x` before normalization). -/
def sepXSum (filter : Filter2D) (xratio frac : ℚ) (radi : Int) : ℚ :=
  ((List.range (tapsOf radi)).map (sepXRaw filter xratio frac radi)).sum

/-- Sum of the raw vertical tap weights (`totalweight_y` before normalization). -/
def sepYSum (filter : Filter2D) (yratio frac : ℚ) (radj : Int) : ℚ :=
  ((List.range (tapsOf radj)).map (sepYRaw filter yratio frac radj)).sum

/-- Normalized horizontal tap weight (lines 425-427): raw weights are divided by their sum
when the sum is nonzero, else left as-is. -/
def sepXNorm (filter : Filter2D) (xratio frac : ℚ) (radi : Int) (i : ℕ) : ℚ :=
  if sepXSum filter xratio frac radi ≠ 0 then
    sepXRaw filter xratio frac radi i / sepXSum filter xratio frac radi
  else sepXRaw filter xratio frac radi i

/-- Normalized vertical tap weight (lines 495-497). -/
def sepYNorm (filter : Filter2D) (yratio frac : ℚ) (radj : Int) (j : ℕ) : ℚ :=
  if sepYSum filter yratio frac radj ≠ 0 then
    sepYRaw filter yratio frac radj j / sepYSum filter yratio frac radj
  else sepYRaw filter yratio frac radj j

/-- Fractional position of output column `x` within its source pixel (`floorfrac`,
line 417/502). -/
def resizeFracX (src : ImageBuf) (dstspec : ImageSpec) (x : Int) : ℚ :=
  srcXf src.spec dstspec x - (⌊srcXf src.spec dstspec x⌋ : ℚ)

/-- Fractional position of output row `y` within its source pixel. -/
def resizeFracY (src : ImageBuf) (dstspec : ImageSpec) (y : Int) : ℚ :=
  srcYf src.spec dstspec y - (⌊srcYf src.spec dstspec y⌋ : ℚ)

/-- `totalweight_x` recomputed at output column `x` from the stored (normalized) taps
(lines 507-509); in exact arithmetic it equals the sum of the normalized taps. -/
def resizeTWX (src : ImageBuf) (dstspec : ImageSpec) (filter : Filter2D) (x : Int) : ℚ :=
  ((List.range (tapsOf (resizeRad filter.width (resizeXratio src.spec dstspec)))).map
    (sepXNorm filter (resizeXratio src.spec dstspec) (resizeFracX src dstspec x)
      (resizeRad filter.width (resizeXratio src.spec dstspec)))).sum

/-- `totalweight_y` of the scanline's normalized taps. -/
def resizeTWY (src : ImageBuf) (dstspec : ImageSpec) (filter : Filter2D) (y : Int) : ℚ :=
  ((List.range (tapsOf (resizeRad filter.width (resizeYratio src.spec dstspec)))).map
    (sepYNorm filter (resizeYratio src.spec dstspec) (resizeFracY src dstspec y)
      (resizeRad filter.width (resizeYratio src.spec dstspec)))).sum

/-- One output pixel of the separable resize path (resize_ lines 477-541): the source
rectangle `[src_x-radi, src_x+radi] x [src_y-radj, src_y+radj]` is read under `WrapClamp`
and accumulated with the normalized tap products `wy*wx`; the accumulation runs only when
`totalweight_x` is nonzero, and the output is zeroed when `totalweight_y` is zero. -/
def resize_sep_pixel (src : ImageBuf) (dstspec : ImageSpec) (filter : Filter2D)
    (x y c : Int) : ℚ :=
  let xratio := resizeXratio src.spec dstspec
  let yratio := resizeYratio src.spec dstspec
  let radi := resizeRad filter.width xratio
  let radj := resizeRad filter.width yratio
  let src_x := ⌊srcXf src.spec dstspec x⌋
  let src_y := ⌊srcYf src.spec dstspec y⌋
  let xw := sepXNorm filter xratio (resizeFracX src dstspec x) radi
  let yw := sepYNorm filter yratio (resizeFracY src dstspec y) radj
  let pel :=
    if resizeTWX src dstspec filter x = 0 then 0
    else
      ((List.range (tapsOf radj)).map (fun j =>
        ((List.range (tapsOf radi)).map (fun i =>
          yw j * xw i *
            src.get .Clamp (src_x - radi + (i : Int)) (src_y - radj + (j : Int)) c)).sum)).sum
  if resizeTWY src dstspec filter y = 0 then 0 else pel

/-- A filter-registry entry (`FilterDesc`): name and default width. -/
structure FilterDesc where
  name : String
  width : ℚ
deriving DecidableEq, Repr

/-- The effective filter name of `get_resize_filter` (lines 604-610): an empty name
defaults to `blackman-harris` when either ratio exceeds 1, else `lanczos3`. -/
def effFilterName (filtername : String) (wratio hratio : ℚ) : String :=
  if filtername = "" then
    if wratio > 1 ∨ hratio > 1 then "blackman-harris" else "lanczos3"
  else filtername

/-- `get_resize_filter` (lines 597-627) over an explicit registry list standing for the
external filter catalog: the first registry entry with the effective name is used; an
explicit positive `fwidth` is used for both axes, otherwise each axis gets
`fd.width * max(1, ratio)`; an unknown name yields `none`. -/
def get_resize_filter (filters : List FilterDesc) (filtername : String)
    (fwidth wratio hratio : ℚ) : Option (String × ℚ × ℚ) :=
  let ename := effFilterName filtername wratio hratio
  match filters.find? (fun fd => fd.name = ename) with
  | some fd =>
      some (ename, if fwidth > 0 then fwidth else fd.width * max 1 wratio,
        if fwidth > 0 then fwidth else fd.width * max 1 hratio)
  | none => none

/-- A deep image: per-pixel sample counts and per-channel per-sample values. -/
structure DeepImage where
  counts : Int → Int → ℕ
  dvalues : Int → Int → Int → ℕ → ℚ

/-- Whether `(x, y)` lies in the x/y rectangle of `roi`. -/
def inRoiXY (roi : ROI) (x y : Int) : Bool :=
  decide (roi.xbegin ≤ x ∧ x < roi.xend ∧ roi.ybegin ≤ y ∧ y < roi.yend)

/-- Source column for resample: `src_x = ifloor(srcfx + s * srcfw)` (lines 1013-1016,
950-952). -/
def resampleSrcX (srcspec dstspec : ImageSpec) (x : Int) : Int := ⌊srcXf srcspec dstspec x⌋

/-- Source row for resample: `src_y = ifloor(srcfy + t * srcfh)`. -/
def resampleSrcY (srcspec dstspec : ImageSpec) (y : Int) : Int := ⌊srcYf srcspec dstspec y⌋

/-- The serial deep pre-pass of `resample` (lines 998-1020): every destination pixel of
the ROI gets its sample count set to the source count at the mapped position; values are
not touched. -/
def resample_deep_prepass (dst src : DeepImage) (srcspec dstspec : ImageSpec) (roi : ROI) :
    DeepImage :=
  { counts := fun x y =>
      if inRoiXY roi x y then
        src.counts (resampleSrcX srcspec dstspec x) (resampleSrcY srcspec dstspec y)
      else dst.counts x y
    dvalues := dst.dvalues }

/-- The parallel deep copy pass of `resample_` (lines 953-968): for each ROI pixel with a
nonzero mapped sample count, all channels' samples are copied from the mapped source
pixel; counts are not touched. -/
def resample_deep_copy (dst src : DeepImage) (srcspec dstspec : ImageSpec) (roi : ROI)
    (nchannels : Int) : DeepImage :=
  { counts := dst.counts
    dvalues := fun x y c samp =>
      let sx := resampleSrcX srcspec dstspec x
      let sy := resampleSrcY srcspec dstspec y
      if inRoiXY roi x y ∧ src.counts sx sy ≠ 0 ∧ samp < src.counts sx sy ∧
          0 ≤ c ∧ c < nchannels then
        src.dvalues sx sy c samp
      else dst.dvalues x y c samp }

/-- Deep-image `resample`: the serial count pre-pass followed by the parallel value copy
pass. -/
def resample_deep (dst src : DeepImage) (srcspec dstspec : ImageSpec) (roi : ROI)
    (nchannels : Int) : DeepImage :=
  resample_deep_copy (resample_deep_prepass dst src srcspec dstspec roi) src srcspec
    dstspec roi nchannels

/-- The rotation matrix built by `ImageBufAlgo::rotate` (lines 348-356/1050-1054) with
`co = cos angle`, `si = sin angle`: starting from the identity, Imath
`M.translate(-c)` premultiplies `T(-c)`, `M.rotate(angle)` postmultiplies the rotation,
and `M *= T(c)` postmultiplies `T(c)`, giving `T(-c) * R * T(c)` in Imath's row-vector
convention. -/
def rotateMatrix (cx cy co si : ℚ) : M33 :=
  ((M33.translateM (-cx) (-cy)).mul (M33.setRotation co si)).mul (M33.translateM cx cy)

/-- The default rotation center of `rotate` without an explicit center (lines 1062-1072):
`(0.5*(xbegin+xend), 0.5*(ybegin+yend))` of the source full window. -/
def rotateDefaultCenter (rf : ROI) : ℚ × ℚ :=
  (1/2 * ((rf.xbegin : ℚ) + (rf.xend : ℚ)), 1/2 * ((rf.ybegin : ℚ) + (rf.yend : ℚ)))

/-- The default rotation center as claim C9 words it: `(0.5*(xbegin+xend),
0.5*(ybegin+ybegin))`. -/
def claimRotateCenter (rf : ROI) : ℚ × ℚ :=
  (1/2 * ((rf.xbegin : ℚ) + (rf.xend : ℚ)), 1/2 * ((rf.ybegin : ℚ) + (rf.ybegin : ℚ)))

/-- `rotate` without an explicit center, at kernel level: builds the matrix about the
default center of the source full window and defers to `warp_` with wrap Black and
edgeclamp false (lines 348-359 and 1062-1072; `ImageBufAlgo::warp` passes
`edgeclamp = false`). -/
def rotateDefault (dst : Int → Int → Int → ℚ) (src : ImageBuf) (rf : ROI) (co si : ℚ)
    (filter : Filter2D) (roi : ROI) : (Int → Int → Int → ℚ) × Bool :=
  let c := rotateDefaultCenter rf
  warp_ dst src (rotateMatrix c.1 c.2 co si) filter .Black false roi

/-! ### Concrete fixtures used by counterexamples and witnesses -/

/-- Test source: data window `[-1,1) x [-1,1)`, one channel, a single unit pixel at the
origin, zero elsewhere. -/
def srcA : ImageBuf :=
  ⟨-1, 1, -1, 1, ⟨-1, -1, 2, 2, 1⟩, fun x y _ => if x = 0 ∧ y = 0 then 1 else 0⟩

/-- A square box filter of width and height 2 (weight 1 within one unit on each axis). -/
def Fbox2 : Filter2D :=
  ⟨2, 2, false, fun qx qy => if abs qx ≤ 1 ∧ abs qy ≤ 1 then 1 else 0,
    fun q => if abs q ≤ 1 then 1 else 0, fun q => if abs q ≤ 1 then 1 else 0⟩

/-- A non-square box filter: width 2, height 4. -/
def F24 : Filter2D :=
  ⟨2, 4, false, fun qx qy => if abs qx ≤ 1 ∧ abs qy ≤ 2 then 1 else 0,
    fun q => if abs q ≤ 1 then 1 else 0, fun q => if abs q ≤ 2 then 1 else 0⟩

/-- A projective matrix with determinant `-2`; its Imath inverse is
`(1,0,1; 0,1,0; 0,0,-1/2)`, whose homogeneous `w` vanishes on the destination column
`x = 0`. -/
def Mc : M33 := ⟨1, 0, 2, 0, 1, 0, 0, 0, -2⟩

/-- An all-zero destination image. -/
def dst0 : Int → Int → Int → ℚ := fun _ _ _ => 0

/-- A destination image with distinct values per position. -/
def dstQ : Int → Int → Int → ℚ := fun x y c => (x : ℚ) + 2 * (y : ℚ) + 3 * (c : ℚ)

/-- A one-pixel, one-channel ROI at the origin. -/
def roiC : ROI := ⟨0, 1, 0, 1, 0, 1, 0, 1⟩

/-- A separable box filter of width 2/5: all taps are 0 or 1 (non-negative), but at
half-integer sample positions every tap is zero. -/
def Fbox25 : Filter2D :=
  ⟨2/5, 2/5, true, fun qx qy => if abs qx ≤ 1/5 ∧ abs qy ≤ 1/5 then 1 else 0,
    fun q => if abs q ≤ 1/5 then 1 else 0, fun q => if abs q ≤ 1/5 then 1 else 0⟩

/-- A constant source image of value 1 with full window `(0,0,4,4)`. -/
def srcC : ImageBuf := ⟨0, 4, 0, 4, ⟨0, 0, 4, 4, 1⟩, fun _ _ _ => 1⟩

/-- Destination spec with full window `(0,0,2,2)`: a 2x downsample of `srcC`. -/
def dstspecC : ImageSpec := ⟨0, 0, 2, 2, 1⟩

/-- A separable box filter of width 2 (all taps non-negative, center taps positive). -/
def FboxW : Filter2D :=
  ⟨2, 2, true, fun qx qy => if abs qx ≤ 1 ∧ abs qy ≤ 1 then 1 else 0,
    fun q => if abs q ≤ 1 then 1 else 0, fun q => if abs q ≤ 1 then 1 else 0⟩

/-- A constant source image of value 3 with full window `(0,0,2,2)`. -/
def srcK : ImageBuf := ⟨0, 2, 0, 2, ⟨0, 0, 2, 2, 1⟩, fun _ _ _ => 3⟩

/-- Destination spec with full window `(0,0,2,2)`: a 1:1 resize of `srcK`. -/
def dstK : ImageSpec := ⟨0, 0, 2, 2, 1⟩

/-- Source full window for the rotate default-center fixture: `[0,2) x [0,2)`. -/
def rf0 : ROI := ⟨0, 2, 0, 2, 0, 1, 0, 1⟩

/-- A concrete filter registry standing for the external catalog. -/
def regC : List FilterDesc := [⟨"lanczos3", 6⟩, ⟨"blackman-harris", 3⟩, ⟨"triangle", 2⟩]

/-- Source ImageSpec with full window `(0,0,4,4)` (used by the deep resample witness). -/
def spec44 : ImageSpec := ⟨0, 0, 4, 4, 1⟩

/-- Destination ImageSpec with full window `(0,0,4,2)`: y downsampled by 2, x unchanged. -/
def spec42 : ImageSpec := ⟨0, 0, 4, 2, 1⟩

/-- Deep source with position-dependent sample counts. -/
def deepSrc : DeepImage := ⟨fun x y => (x + 2 * y).toNat, fun _ _ _ _ => 0⟩

/-- Deep destination with all counts zero. -/
def deepDst : DeepImage := ⟨fun _ _ => 0, fun _ _ _ _ => 0⟩

/-- ROI `[0,2) x [0,2)` for the deep resample witness. -/
def roiD : ROI := ⟨0, 2, 0, 2, 0, 1, 0, 1⟩

/-! ### Helper lemmas -/

/-- If the homogeneous `w` of the inverse-mapped pixel center vanishes, the warp kernel
body reduces to a filtered sample at the origin with zero derivatives. -/
theorem warpPixel_w0 (src : ImageBuf) (Minv : M33) (filter : Filter2D) (wrap : WrapMode)
    (edgeclamp : Bool) (x y c : Int) (hw : warpW Minv x y = 0) :
    warpPixel src Minv filter wrap edgeclamp x y c
      = filtered_sample src 0 0 0 0 0 0 filter wrap edgeclamp c := by
  simp only [warpW] at hw
  simp only [warpPixel, robust_multVecMatrix, Dual2.mulC, Dual2.add, Dual2.addC, hw]
  simp

/-- Inside the ROI and channel range, the warp kernel writes the warp pixel body. -/
theorem warpKernelFn_in (dst : Int → Int → Int → ℚ) (src : ImageBuf) (Minv : M33)
    (filter : Filter2D) (wrap : WrapMode) (edgeclamp : Bool) (roi : ROI) (x y c : Int)
    (h : roi.xbegin ≤ x ∧ x < roi.xend ∧ roi.ybegin ≤ y ∧ y < roi.yend ∧
      roi.chbegin ≤ c ∧ c < roi.chend) :
    warpKernelFn dst src Minv filter wrap edgeclamp roi x y c
      = warpPixel src Minv filter wrap edgeclamp x y c := by
  simp only [warpKernelFn, if_pos h]

/-- The Imath inverse of the fixture `Mc`, computed. -/
theorem Mc_inverse_eq : M33.inverse Mc = ⟨1, 0, 1, 0, 1, 0, 0, 0, -1/2⟩ := by
  simp only [M33.inverse, Mc, M33.mk.injEq]
  norm_num

/-- The homogeneous `w` of destination pixel `(0,0)` under the inverse of `Mc` is zero. -/
theorem warpW_Mc_zero : warpW (M33.inverse Mc) 0 0 = 0 := by
  rw [Mc_inverse_eq]
  simp only [warpW]
  norm_num

/-- The filtered sample of `srcA` at the origin with zero derivatives under the box
filter: four taps of weight 1, one of which reads the unit pixel, giving `1/4`. -/
theorem filtered_sample_srcA_origin :
    filtered_sample srcA 0 0 0 0 0 0 Fbox2 .Black false 0 = 1/4 := by
  have hsp : sampleSupport srcA 0 0 0 0 0 0 Fbox2 false = ⟨-1, 1, -1, 1⟩ := by
    simp only [sampleSupport, srcA, Fbox2, Support.mk.injEq]
    norm_num
  have hir : intRange (-1) 1 = [-1, 0] := by decide
  have habs : |(1:ℚ)/2| = 1/2 := by
    rw [abs_of_pos]
    norm_num
  simp only [filtered_sample]
  rw [hsp]
  simp only [sampleResult, supportSum, hir, List.map_cons, List.map_nil, List.sum_cons,
    List.sum_nil]
  norm_num [ImageBuf.get, srcA, Fbox2, habs]

/-- Sum of a right-scaled map over a range. -/
theorem list_range_sum_mul_right (n : ℕ) (f : ℕ → ℚ) (a : ℚ) :
    ((List.range n).map (fun i => f i * a)).sum = ((List.range n).map f).sum * a := by
  induction n with
  | zero => simp
  | succ m ih =>
      rw [List.range_succ]
      simp only [List.map_append, List.sum_append, List.map_cons, List.map_nil,
        List.sum_cons, List.sum_nil, ih]
      ring

/-- Sum of a left-scaled map over a range. -/
theorem list_range_sum_mul_left (n : ℕ) (f : ℕ → ℚ) (a : ℚ) :
    ((List.range n).map (fun i => a * f i)).sum = a * ((List.range n).map f).sum := by
  induction n with
  | zero => simp
  | succ m ih =>
      rw [List.range_succ]
      simp only [List.map_append, List.sum_append, List.map_cons, List.map_nil,
        List.sum_cons, List.sum_nil, ih]
      ring

/-- Sum of a pointwise-divided map over a range. -/
theorem list_range_sum_div (n : ℕ) (f : ℕ → ℚ) (s : ℚ) :
    ((List.range n).map (fun i => f i / s)).sum = ((List.range n).map f).sum / s := by
  simpa [div_eq_mul_inv] using list_range_sum_mul_right n f s⁻¹

/-- When the raw horizontal tap sum is nonzero, the normalized taps sum to 1. -/
theorem sepXNorm_sum (filter : Filter2D) (xratio frac : ℚ) (radi : Int)
    (h : sepXSum filter xratio frac radi ≠ 0) :
    ((List.range (tapsOf radi)).map (sepXNorm filter xratio frac radi)).sum = 1 := by
  have hfun : sepXNorm filter xratio frac radi
      = fun i => sepXRaw filter xratio frac radi i / sepXSum filter xratio frac radi := by
    funext i
    simp only [sepXNorm, if_pos h]
  rw [hfun, list_range_sum_div]
  exact div_self h

/-- When the raw vertical tap sum is nonzero, the normalized taps sum to 1. -/
theorem sepYNorm_sum (filter : Filter2D) (yratio frac : ℚ) (radj : Int)
    (h : sepYSum filter yratio frac radj ≠ 0) :
    ((List.range (tapsOf radj)).map (sepYNorm filter yratio frac radj)).sum = 1 := by
  have hfun : sepYNorm filter yratio frac radj
      = fun j => sepYRaw filter yratio frac radj j / sepYSum filter yratio frac radj := by
    funext j
    simp only [sepYNorm, if_pos h]
  rw [hfun, list_range_sum_div]
  exact div_self h

/-- Non-negative 1D taps stay non-negative after normalization (x axis). -/
theorem sepXNorm_nonneg (filter : Filter2D) (xratio frac : ℚ) (radi : Int)
    (hf : ∀ q, 0 ≤ filter.xfilt q) (i : ℕ) : 0 ≤ sepXNorm filter xratio frac radi i := by
  have hraw : ∀ j : ℕ, 0 ≤ sepXRaw filter xratio frac radi j := fun j => hf _
  have hsum : 0 ≤ sepXSum filter xratio frac radi := by
    apply List.sum_nonneg
    intro q hq
    simp only [List.mem_map] at hq
    obtain ⟨j, _, rfl⟩ := hq
    exact hraw j
  unfold sepXNorm
  split
  · exact div_nonneg (hraw i) hsum
  · exact hraw i

/-- Non-negative 1D taps stay non-negative after normalization (y axis). -/
theorem sepYNorm_nonneg (filter : Filter2D) (yratio frac : ℚ) (radj : Int)
    (hf : ∀ q, 0 ≤ filter.yfilt q) (j : ℕ) : 0 ≤ sepYNorm filter yratio frac radj j := by
  have hraw : ∀ i : ℕ, 0 ≤ sepYRaw filter yratio frac radj i := fun i => hf _
  have hsum : 0 ≤ sepYSum filter yratio frac radj := by
    apply List.sum_nonneg
    intro q hq
    simp only [List.mem_map] at hq
    obtain ⟨i, _, rfl⟩ := hq
    exact hraw i
  unfold sepYNorm
  split
  · exact div_nonneg (hraw j) hsum
  · exact hraw j

/-! ### Theorems for the claims -/

/-- Claim C1, counterexample: for a filter of width 2 and height 4 at `(s,t) = (0,0)` with
zero derivatives, the support the source computes is `(-1,1,-1,1)` (both radii from the
filter width), not the claimed `(-1,1,-2,2)` (t radius from the filter height). -/
theorem C1_counterexample :
    sampleSupport srcA 0 0 0 0 0 0 F24 false ≠ claimSampleSupport 0 0 0 0 0 0 F24 := by
  simp only [sampleSupport, claimSampleSupport, srcA, F24, ne_eq, Support.mk.injEq]
  norm_num

/-- Claim C1, amended: with the edge clamp off, the support of `filtered_sample` is
`[floor(s-rs), ceil(s+rs)) x [floor(t-rt), ceil(t+rt))` with
`ds = max(1,|ds/dx|,|ds/dy|)`, `dt = max(1,|dt/dx|,|dt/dy|)`, `rs = 0.5*ds*filter.width`
and `rt = 0.5*dt*filter.width` (the filter width on both axes), and the filtered sample
accumulates exactly over that rectangle with weights scaled by `1/ds` and `1/dt`. -/
theorem C1_support_amended (src : ImageBuf) (s t dsdx dtdx dsdy dtdy : ℚ)
    (filter : Filter2D) (wrap : WrapMode) (c : Int) :
    sampleSupport src s t dsdx dtdx dsdy dtdy filter false
      = amendedSampleSupport s t dsdx dtdx dsdy dtdy filter ∧
    filtered_sample src s t dsdx dtdx dsdy dtdy filter wrap false c
      = sampleResult src filter wrap (amendedSampleSupport s t dsdx dtdx dsdy dtdy filter)
          s t (1 / max 1 (max (abs dsdx) (abs dsdy))) (1 / max 1 (max (abs dtdx) (abs dtdy))) c := by
  constructor
  · simp [sampleSupport, amendedSampleSupport]
  · simp [filtered_sample, sampleSupport, amendedSampleSupport]

/-- Claim C2: on a resize from full window 4x4 to 4x2 with a non-separable filter of
width 2, the integer radii are `radi = 1` and `radj = 2`; the rerange rectangle the
source issues uses `radi` on the y axis (3 rows, 9 pixels), not the claimed
`[src_y-radj, src_y+radj]` (5 rows), while the accumulation loop performs 15 iterator
steps — so the in-loop assertion `OIIO_DASSERT(!srcpel.done())` is violated. -/
theorem C2_radij_mismatch :
    resizeRad 2 (resizeXratio spec44 spec42) = 1 ∧
    resizeRad 2 (resizeYratio spec44 spec42) = 2 ∧
    nonsepRerange 0 0 1 ≠ claimNonsepRerange 0 0 1 2 ∧
    nonsepIterCount 1 2 = 15 ∧ rectArea (nonsepRerange 0 0 1) = 9 ∧
    ¬ nonsepAssertsHold 1 2 := by
  refine ⟨?_, ?_, by decide, by decide, by decide,
    by simp [nonsepAssertsHold, nonsepIterCount, rectArea, nonsepRerange]⟩
  · simp only [resizeRad, resizeXratio, spec44, spec42]
    norm_num
  · simp only [resizeRad, resizeYratio, spec44, spec42]
    norm_num

/-- Claim C3, counterexample: under the matrix `Mc`, destination pixel `(0,0)` has
homogeneous `w = 0`, the operation reports success, yet the emitted pixel is `1/4`, not
zero — when `w = 0` the kernel samples the source at `(0,0)` instead of writing zeros. -/
theorem C3_counterexample :
    warpW (M33.inverse Mc) 0 0 = 0 ∧
    (warp_ dst0 srcA Mc Fbox2 .Black false roiC).2 = true ∧
    (warp_ dst0 srcA Mc Fbox2 .Black false roiC).1 0 0 0 = 1/4 ∧ ((1 : ℚ)/4 ≠ 0) := by
  refine ⟨warpW_Mc_zero, rfl, ?_, by norm_num⟩
  show warpKernelFn dst0 srcA (M33.inverse Mc) Fbox2 .Black false roiC 0 0 0 = 1/4
  rw [warpKernelFn_in _ _ _ _ _ _ _ _ _ _ (by decide),
    warpPixel_w0 _ _ _ _ _ _ _ _ warpW_Mc_zero]
  exact filtered_sample_srcA_origin

/-- Claim C9, counterexample: for a source full window `[0,2) x [0,2)` the default rotate
center computed by the source is `(1, 1)` (`0.5*(ybegin+yend)`), not the claimed
`0.5*(ybegin+ybegin) = 0`. -/
theorem C9_counterexample :
    rotateDefaultCenter rf0 ≠ claimRotateCenter rf0 ∧
    (rotateDefaultCenter rf0).2 = 1 ∧ (claimRotateCenter rf0).2 = 0 := by
  refine ⟨?_, ?_, ?_⟩ <;>
    · simp only [rotateDefaultCenter, claimRotateCenter, rf0, ne_eq, Prod.mk.injEq]
      norm_num

/-- Claim C10: the warp kernel leaves every channel outside `[chbegin, chend)` and every
pixel outside the ROI unwritten. -/
theorem C10_warp_frame (dst : Int → Int → Int → ℚ) (src : ImageBuf) (Minv : M33)
    (filter : Filter2D) (wrap : WrapMode) (edgeclamp : Bool) (roi : ROI) (x y c : Int)
    (h : ¬(roi.xbegin ≤ x ∧ x < roi.xend ∧ roi.ybegin ≤ y ∧ y < roi.yend ∧
      roi.chbegin ≤ c ∧ c < roi.chend)) :
    warpKernelFn dst src Minv filter wrap edgeclamp roi x y c = dst x y c := by
  simp only [warpKernelFn, if_neg h]

/-- Witness for C10: pixel `(5,0)` lies outside the one-pixel ROI, and the kernel output
there equals the prior destination value `5`. -/
theorem C10_witness :
    warpKernelFn dstQ srcA (M33.inverse Mc) Fbox2 .Black false roiC 5 0 0 = 5 := by
  rw [C10_warp_frame dstQ srcA (M33.inverse Mc) Fbox2 .Black false roiC 5 0 0 (by decide)]
  simp only [dstQ]
  norm_num

/-- Claim C7: after the serial deep pre-pass — and still after the value copy pass —
every ROI pixel's sample count equals the source count at
`(floor(src_full_x + s*src_full_width), floor(src_full_y + t*src_full_height))`. -/
theorem C7_deep_counts (dst src : DeepImage) (srcspec dstspec : ImageSpec) (roi : ROI)
    (nchannels : Int) (x y : Int) (hin : inRoiXY roi x y = true) :
    (resample_deep_prepass dst src srcspec dstspec roi).counts x y
      = src.counts (resampleSrcX srcspec dstspec x) (resampleSrcY srcspec dstspec y) ∧
    (resample_deep dst src srcspec dstspec roi nchannels).counts x y
      = src.counts (resampleSrcX srcspec dstspec x) (resampleSrcY srcspec dstspec y) := by
  constructor
  · simp [resample_deep_prepass, hin]
  · simp [resample_deep, resample_deep_copy, resample_deep_prepass, hin]

/-- Witness for C7: resampling a 4x4 deep source to 2x2, destination pixel `(1,0)` maps
to source pixel `(3,1)` and receives its sample count `5`. -/
theorem C7_witness :
    (resample_deep deepDst deepSrc spec44 dstspecC roiD 1).counts 1 0 = 5 := by
  rw [(C7_deep_counts deepDst deepSrc spec44 dstspecC roiD 1 1 0 (by decide)).2]
  have hx : resampleSrcX spec44 dstspecC 1 = 3 := by
    simp only [resampleSrcX, srcXf, dstNdcS, spec44, dstspecC]
    norm_num
  have hy : resampleSrcY spec44 dstspecC 0 = 1 := by
    simp only [resampleSrcY, srcYf, dstNdcT, spec44, dstspecC]
    norm_num
  rw [hx, hy]
  decide

/-- Claim C4: with the edge clamp on, the support rectangle is the edge-clamp-off support
clamped componentwise to the source data window, and in both modes the accumulation runs
with the caller's wrap mode unchanged. -/
theorem C4_edgeclamp (src : ImageBuf) (s t dsdx dtdx dsdy dtdy : ℚ) (filter : Filter2D)
    (wrap : WrapMode) (c : Int) :
    sampleSupport src s t dsdx dtdx dsdy dtdy filter true
      = ⟨clampI (sampleSupport src s t dsdx dtdx dsdy dtdy filter false).smin src.xbegin src.xend,
         clampI (sampleSupport src s t dsdx dtdx dsdy dtdy filter false).smax src.xbegin src.xend,
         clampI (sampleSupport src s t dsdx dtdx dsdy dtdy filter false).tmin src.ybegin src.yend,
         clampI (sampleSupport src s t dsdx dtdx dsdy dtdy filter false).tmax src.ybegin src.yend⟩ ∧
    filtered_sample src s t dsdx dtdx dsdy dtdy filter wrap true c
      = sampleResult src filter wrap (sampleSupport src s t dsdx dtdx dsdy dtdy filter true)
          s t (1 / max 1 (max (abs dsdx) (abs dsdy))) (1 / max 1 (max (abs dtdx) (abs dtdy))) c ∧
    filtered_sample src s t dsdx dtdx dsdy dtdy filter wrap false c
      = sampleResult src filter wrap (sampleSupport src s t dsdx dtdx dsdy dtdy filter false)
          s t (1 / max 1 (max (abs dsdx) (abs dsdy))) (1 / max 1 (max (abs dtdx) (abs dtdy))) c := by
  refine ⟨by simp [sampleSupport], rfl, rfl⟩

/-- Claim C3, amended: for every destination pixel of the ROI whose inverse-mapped
homogeneous `w` is zero, the projective divide is skipped, the sample point and both
derivatives are set to zero, the pixel receives the filtered sample of the source at
`(0,0)` with zero derivatives (zeros only when that sample is zero), and the warp still
returns success. -/
theorem C3_w0_amended (dst : Int → Int → Int → ℚ) (src : ImageBuf) (M : M33)
    (filter : Filter2D) (wrap : WrapMode) (edgeclamp : Bool) (roi : ROI) (x y c : Int)
    (hw : warpW (M33.inverse M) x y = 0)
    (hin : roi.xbegin ≤ x ∧ x < roi.xend ∧ roi.ybegin ≤ y ∧ y < roi.yend ∧
      roi.chbegin ≤ c ∧ c < roi.chend) :
    (warp_ dst src M filter wrap edgeclamp roi).2 = true ∧
    (warp_ dst src M filter wrap edgeclamp roi).1 x y c
      = filtered_sample src 0 0 0 0 0 0 filter wrap edgeclamp c := by
  refine ⟨rfl, ?_⟩
  show warpKernelFn dst src (M33.inverse M) filter wrap edgeclamp roi x y c = _
  rw [warpKernelFn_in _ _ _ _ _ _ _ _ _ _ hin, warpPixel_w0 _ _ _ _ _ _ _ _ hw]

/-- Witness for the amended C3: the concrete singular-`w` pixel of the `Mc` fixture. -/
theorem C3_w0_witness :
    (warp_ dst0 srcA Mc Fbox2 .Clamp true roiC).2 = true ∧
    (warp_ dst0 srcA Mc Fbox2 .Clamp true roiC).1 0 0 0
      = filtered_sample srcA 0 0 0 0 0 0 Fbox2 .Clamp true 0 :=
  C3_w0_amended dst0 srcA Mc Fbox2 .Clamp true roiC 0 0 0 warpW_Mc_zero (by decide)

/-- Claim C5: `transform` maps the four corner pixel centers of the ROI through `M`,
takes the axis-aligned bounding box, returns the integer ROI `[floor(min), floor(max)+1)`
per axis, and preserves the z and channel ranges. -/
theorem C5_transform_roi (M : M33) (roi : ROI) : transform M roi = claimTransformRoi M roi := by
  simp only [transform, claimTransformRoi, ROI.mk.injEq]
  have hmin : ∀ a b c d : ℚ, min (min (min a b) c) d = min (min (min a c) b) d := by
    intro a b c d
    rw [min_assoc a b c, min_comm b c, ← min_assoc a c b]
  have hmax : ∀ a b c d : ℚ, max (max (max a b) c) d = max (max (max a c) b) d := by
    intro a b c d
    rw [max_assoc a b c, max_comm b c, ← max_assoc a c b]
  exact ⟨by rw [hmin], by rw [hmax], by rw [hmin], by rw [hmax], trivial, trivial, trivial,
    trivial⟩

/-- Claim C6: with an empty name the effective filter is `blackman-harris` when either
ratio exceeds 1, else `lanczos3`; with a name but no positive explicit width each axis
gets the registry default width times `max(1, ratio)` of that axis; a positive explicit
width is used for both axes. -/
theorem C6_filter_selection (filters : List FilterDesc) (filtername : String)
    (fwidth wratio hratio : ℚ) :
    (filtername = "" →
      effFilterName filtername wratio hratio
        = (if wratio > 1 ∨ hratio > 1 then "blackman-harris" else "lanczos3")) ∧
    (fwidth ≤ 0 →
      get_resize_filter filters filtername fwidth wratio hratio
        = (filters.find? (fun fd => fd.name = effFilterName filtername wratio hratio)).map
            (fun fd => (effFilterName filtername wratio hratio,
              fd.width * max 1 wratio, fd.width * max 1 hratio))) ∧
    (0 < fwidth →
      get_resize_filter filters filtername fwidth wratio hratio
        = (filters.find? (fun fd => fd.name = effFilterName filtername wratio hratio)).map
            (fun fd => (effFilterName filtername wratio hratio, fwidth, fwidth))) := by
  refine ⟨fun h => by simp [effFilterName, h], fun h => ?_, fun h => ?_⟩
  · simp only [get_resize_filter]
    cases hf : filters.find? (fun fd => fd.name = effFilterName filtername wratio hratio) with
    | none => simp
    | some fd => simp [not_lt.mpr h]
  · simp only [get_resize_filter]
    cases hf : filters.find? (fun fd => fd.name = effFilterName filtername wratio hratio) with
    | none => simp
    | some fd => simp [h]

/-- Witness for C6: on the concrete registry, the empty name at upscaling ratio 2 picks
`blackman-harris` with per-axis widths `3*2` and `3*1`, and an explicit width 4 overrides
both axes of `triangle`. -/
theorem C6_witness :
    ((0:ℚ) ≤ 0 ∧ get_resize_filter regC "" 0 2 (1/2) = some ("blackman-harris", 6, 3)) ∧
    ((0:ℚ) < 4 ∧ get_resize_filter regC "triangle" 4 2 (1/2) = some ("triangle", 4, 4)) := by
  constructor
  · refine ⟨le_refl 0, ?_⟩
    rw [(C6_filter_selection regC "" 0 2 (1/2)).2.1 (le_refl 0)]
    simp [effFilterName, regC, List.find?]
    norm_num
  · refine ⟨by norm_num, ?_⟩
    rw [(C6_filter_selection regC "triangle" 4 2 (1/2)).2.2 (by norm_num)]
    simp [effFilterName, regC, List.find?]

/-- Claim C8, counterexample: with the separable non-negative box filter of width 2/5 on
a 2x downsample, all tap weights of output pixel `(0,0)` vanish, so the resize writes 0
even though every source pixel holds the constant 1. -/
theorem C8_counterexample :
    resize_sep_pixel srcC dstspecC Fbox25 0 0 0 = 0 ∧ srcC.pixel 0 0 0 = 1 ∧ (0:ℚ) ≠ 1 := by
  have ht : tapsOf 1 = 3 := by decide
  have hr : resizeYratio srcC.spec dstspecC = 1/2 := by
    simp only [resizeYratio, srcC, dstspecC]
    norm_num
  have hrad : resizeRad Fbox25.width (1/2) = 1 := by
    simp only [resizeRad, Fbox25]
    norm_num [Int.ceil_eq_iff]
  have hfrac : resizeFracY srcC dstspecC 0 = 0 := by
    simp only [resizeFracY, srcYf, dstNdcT, srcC, dstspecC]
    norm_num
  have hs0 : sepYSum Fbox25 (1/2) 0 1 = 0 := by
    unfold sepYSum
    rw [ht]
    simp only [List.range_succ, List.range_zero, List.map_append, List.map_cons,
      List.map_nil, List.sum_append, List.sum_cons, List.sum_nil, List.nil_append,
      sepYRaw, Fbox25]
    norm_num [abs_le]
  have hTWY0 : resizeTWY srcC dstspecC Fbox25 0 = 0 := by
    unfold resizeTWY
    rw [hr, hrad, hfrac, ht]
    have hfun : sepYNorm Fbox25 (1/2) 0 1 = sepYRaw Fbox25 (1/2) 0 1 := by
      funext j
      unfold sepYNorm
      rw [if_neg (fun hn => hn hs0)]
    rw [hfun]
    have hsum := hs0
    unfold sepYSum at hsum
    rw [ht] at hsum
    exact hsum
  refine ⟨?_, rfl, by norm_num⟩
  unfold resize_sep_pixel
  rw [if_pos hTWY0]

/-- Claim C8, amended: for a separable filter with non-negative taps, at every output
pixel whose horizontal and vertical normalized tap sums are nonzero, the normalized taps
are non-negative and sum to 1 on each axis (so the pixel is a convex combination of
clamp-read source pixels), and a constant-valued source yields exactly that constant;
when a tap sum is zero the pixel is written as zero instead. -/
theorem C8_const_resize (src : ImageBuf) (dstspec : ImageSpec) (filter : Filter2D)
    (x y c : Int) (k : ℚ)
    (hconst : ∀ a b cc : Int, src.pixel a b cc = k)
    (hfx : ∀ q, 0 ≤ filter.xfilt q) (hfy : ∀ q, 0 ≤ filter.yfilt q)
    (hx : resizeTWX src dstspec filter x ≠ 0) (hy : resizeTWY src dstspec filter y ≠ 0) :
    resizeTWX src dstspec filter x = 1 ∧ resizeTWY src dstspec filter y = 1 ∧
    (∀ i, 0 ≤ sepXNorm filter (resizeXratio src.spec dstspec) (resizeFracX src dstspec x)
      (resizeRad filter.width (resizeXratio src.spec dstspec)) i) ∧
    (∀ j, 0 ≤ sepYNorm filter (resizeYratio src.spec dstspec) (resizeFracY src dstspec y)
      (resizeRad filter.width (resizeYratio src.spec dstspec)) j) ∧
    resize_sep_pixel src dstspec filter x y c = k := by
  have hsx : sepXSum filter (resizeXratio src.spec dstspec) (resizeFracX src dstspec x)
      (resizeRad filter.width (resizeXratio src.spec dstspec)) ≠ 0 := by
    intro h0
    apply hx
    unfold resizeTWX
    have hfun : sepXNorm filter (resizeXratio src.spec dstspec) (resizeFracX src dstspec x)
        (resizeRad filter.width (resizeXratio src.spec dstspec))
        = sepXRaw filter (resizeXratio src.spec dstspec) (resizeFracX src dstspec x)
          (resizeRad filter.width (resizeXratio src.spec dstspec)) := by
      funext i
      simp [sepXNorm, h0]
    rw [hfun]
    exact h0
  have hsy : sepYSum filter (resizeYratio src.spec dstspec) (resizeFracY src dstspec y)
      (resizeRad filter.width (resizeYratio src.spec dstspec)) ≠ 0 := by
    intro h0
    apply hy
    unfold resizeTWY
    have hfun : sepYNorm filter (resizeYratio src.spec dstspec) (resizeFracY src dstspec y)
        (resizeRad filter.width (resizeYratio src.spec dstspec))
        = sepYRaw filter (resizeYratio src.spec dstspec) (resizeFracY src dstspec y)
          (resizeRad filter.width (resizeYratio src.spec dstspec)) := by
      funext j
      simp [sepYNorm, h0]
    rw [hfun]
    exact h0
  have h1 : ((List.range (tapsOf (resizeRad filter.width (resizeXratio src.spec dstspec)))).map
      (sepXNorm filter (resizeXratio src.spec dstspec) (resizeFracX src dstspec x)
        (resizeRad filter.width (resizeXratio src.spec dstspec)))).sum = 1 :=
    sepXNorm_sum _ _ _ _ hsx
  have h2 : ((List.range (tapsOf (resizeRad filter.width (resizeYratio src.spec dstspec)))).map
      (sepYNorm filter (resizeYratio src.spec dstspec) (resizeFracY src dstspec y)
        (resizeRad filter.width (resizeYratio src.spec dstspec)))).sum = 1 :=
    sepYNorm_sum _ _ _ _ hsy
  refine ⟨by unfold resizeTWX; exact h1, by unfold resizeTWY; exact h2,
    sepXNorm_nonneg _ _ _ _ hfx, sepYNorm_nonneg _ _ _ _ hfy, ?_⟩
  have hget : ∀ xx yy : Int, src.get .Clamp xx yy c = k := by
    intro xx yy
    unfold ImageBuf.get
    split
    · exact hconst _ _ _
    · exact hconst _ _ _
  unfold resize_sep_pixel
  rw [if_neg hy, if_neg hx]
  simp only [hget, mul_assoc, list_range_sum_mul_left, list_range_sum_mul_right, h1, h2,
    one_mul, mul_one]

/-- Witness for the amended C8: a 1:1 separable box resize of the constant-3 source has
nonzero tap sums and reproduces the constant exactly. -/
theorem C8_witness :
    resizeTWX srcK dstK FboxW 0 ≠ 0 ∧ resizeTWY srcK dstK FboxW 0 ≠ 0 ∧
    resize_sep_pixel srcK dstK FboxW 0 0 0 = 3 := by
  have ht : tapsOf 1 = 3 := by decide
  have hrx : resizeXratio srcK.spec dstK = 1 := by
    simp only [resizeXratio, srcK, dstK]
    norm_num
  have hry : resizeYratio srcK.spec dstK = 1 := by
    simp only [resizeYratio, srcK, dstK]
    norm_num
  have hrad : resizeRad FboxW.width 1 = 1 := by
    simp only [resizeRad, FboxW]
    norm_num
  have hfracx : resizeFracX srcK dstK 0 = 1/2 := by
    simp only [resizeFracX, srcXf, dstNdcS, srcK, dstK]
    norm_num
  have hfracy : resizeFracY srcK dstK 0 = 1/2 := by
    simp only [resizeFracY, srcYf, dstNdcT, srcK, dstK]
    norm_num
  have hsx : sepXSum FboxW 1 (1/2) 1 = 3 := by
    unfold sepXSum
    rw [ht]
    simp only [List.range_succ, List.range_zero, List.map_append, List.map_cons,
      List.map_nil, List.sum_append, List.sum_cons, List.sum_nil, List.nil_append,
      sepXRaw, FboxW]
    norm_num [abs_le]
  have hsy : sepYSum FboxW 1 (1/2) 1 = 3 := by
    unfold sepYSum
    rw [ht]
    simp only [List.range_succ, List.range_zero, List.map_append, List.map_cons,
      List.map_nil, List.sum_append, List.sum_cons, List.sum_nil, List.nil_append,
      sepYRaw, FboxW]
    norm_num [abs_le]
  have hTWX : resizeTWX srcK dstK FboxW 0 = 1 := by
    unfold resizeTWX
    rw [hrx, hrad, hfracx]
    exact sepXNorm_sum _ _ _ _ (by rw [hsx]; norm_num)
  have hTWY : resizeTWY srcK dstK FboxW 0 = 1 := by
    unfold resizeTWY
    rw [hry, hrad, hfracy]
    exact sepYNorm_sum _ _ _ _ (by rw [hsy]; norm_num)
  have hx : resizeTWX srcK dstK FboxW 0 ≠ 0 := by
    rw [hTWX]
    norm_num
  have hy : resizeTWY srcK dstK FboxW 0 ≠ 0 := by
    rw [hTWY]
    norm_num
  have hfx : ∀ q, 0 ≤ FboxW.xfilt q := by
    intro q
    show 0 ≤ if |q| ≤ 1 then (1:ℚ) else 0
    split <;> norm_num
  have hfy : ∀ q, 0 ≤ FboxW.yfilt q := by
    intro q
    show 0 ≤ if |q| ≤ 1 then (1:ℚ) else 0
    split <;> norm_num
  exact ⟨hx, hy, (C8_const_resize srcK dstK FboxW 0 0 0 3 (fun _ _ _ => rfl)
    hfx hfy hx hy).2.2.2.2⟩

/-- Claim C9, amended: `rotate` without an explicit center is `warp_` with wrap Black and
the matrix built about the default center `(0.5*(xbegin+xend), 0.5*(ybegin+yend))` of the
source full window; for any center and any `(cos, sin)` pair, the built matrix acts on a
point as rotation about that center (i.e. `T(c) * R(angle) * T(-c)` in the column-vector
convention the claim uses). -/
theorem C9_rotate_amended (dst : Int → Int → Int → ℚ) (src : ImageBuf) (rf : ROI)
    (co si cx cy : ℚ) (filter : Filter2D) (roi : ROI) (px py : ℚ) :
    rotateDefault dst src rf co si filter roi
      = warp_ dst src
          (rotateMatrix (1/2 * ((rf.xbegin : ℚ) + (rf.xend : ℚ)))
            (1/2 * ((rf.ybegin : ℚ) + (rf.yend : ℚ))) co si)
          filter .Black false roi ∧
    (rotateMatrix cx cy co si).multVec px py
      = (co * (px - cx) - si * (py - cy) + cx, si * (px - cx) + co * (py - cy) + cy) := by
  constructor
  · rfl
  · simp only [rotateMatrix, M33.mul, M33.translateM, M33.setRotation, M33.multVec,
      Prod.mk.injEq]
    norm_num
    constructor <;> ring

end OIIO
